import Mathlib

/-!
Verification of the stevedore media-acquisition pipeline.

The development shallowly embeds the core of the repository:

* `stevedore/tasks/downloads.py` — the Cobalt download stage
  (`download_video_asset`, `_probe_media_metadata`);
* `stevedore/tasks/audio.py` — the audio extraction stage
  (`_derive_storage_key`, `extract_audio_asset`);
* `stevedore/flows/stevedore.py` — the pipeline coordinator
  (`video_pipeline_flow`);
* `stevedore/blocks/minio.py` — existence checks against the object store.

Python strings are Lean `String`s, `None`-able values are `Option`s, and
POSIX pure paths (`pathlib.PurePosixPath` on relative paths) are modelled by
their list of parts: splitting on the slash character and dropping empty
segments and single-dot segments, exactly as `PurePosixPath` normalises a
relative path.  External collaborators (HTTP client, S3 client, ffmpeg,
ffprobe, the Prefect scheduler) are modelled by explicit oracle records whose
fields describe the outcome of each external call; the stage functions are
then total functions from those oracles to results, stores, and event counts,
transcribed branch-for-branch from the Python source.
-/

namespace Stevedore

/-! ## Python string helpers -/

/-- Splitting a character list at every slash; `acc` holds the chars of the
current chunk in reverse.  This is the character-level core of
`PurePosixPath` segmentation. -/
def splitSlashAux : List Char → List Char → List (List Char)
  | [], acc => [acc.reverse]
  | c :: cs, acc =>
    if c = '/' then acc.reverse :: splitSlashAux cs []
    else splitSlashAux cs (c :: acc)

/-- Parts of a relative POSIX path string: split on slashes, drop empty
segments and single-dot segments (what `PurePosixPath(s).parts` yields for a
relative `s`). -/
def pathParts (s : String) : List String :=
  ((splitSlashAux s.data []).map fun cs => String.mk cs).filter
    fun t => t != "" && t != "."

/-- Joining path parts with slashes; on the empty list this gives `""`. -/
def joinSlash : List String → String
  | [] => ""
  | [t] => t
  | t :: ts => t ++ "/" ++ joinSlash ts

/-- Python `s.rstrip("/")`: remove every trailing slash. -/
def rstripSlash (s : String) : String :=
  String.mk ((s.data.reverse.dropWhile fun c => c == '/').reverse)

/-- Python `s.strip("/")`: remove leading and trailing slashes. -/
def stripSlash (s : String) : String :=
  String.mk (((s.data.dropWhile fun c => c == '/').reverse.dropWhile
    fun c => c == '/').reverse)

/-- Python `v or dflt` for an optional string `v`: the default is used when
`v` is `None` or empty. -/
def pyOr (v : Option String) (dflt : String) : String :=
  match v with
  | some s => if s = "" then dflt else s
  | none => dflt

/-- Python `pathlib` `stem` of a bare file name: the name up to the last dot,
provided that dot is neither the first character nor the last one. -/
def pyStem (name : String) : String :=
  match (name.data.reverse.takeWhile fun c => c != '.') with
  | [] => name
  | ext =>
    if ext.length = name.data.length then name
    else if ext.length = 0 then name
    else if name.data.length - ext.length - 1 = 0 then name
    else String.mk (name.data.take (name.data.length - ext.length - 1))

/-- The last part of a parts list, or `""` when there is none: this is
`PurePosixPath.name` for a relative path. -/
def posixName (parts : List String) : String :=
  parts.getLast?.getD ""

/-- True when the string ends in a slash character. -/
def endsWithSlash (s : String) : Bool :=
  s.data.getLast? == some '/'

/-- True when the string starts with a slash character (an absolute POSIX
path). -/
def startsWithSlash (s : String) : Bool :=
  s.data.head? == some '/'

/-! ## Download-stage key derivation (`downloads.py`, lines 84–87) -/

/-- The file name chosen by `download_video_asset`:
`object_name or f"video_{task_id}.mp4"`. -/
def downloadFileName (taskId : String) (objectName : Option String) : String :=
  pyOr objectName ("video_" ++ taskId ++ ".mp4")

/-- The object key from `downloads.py` line 86:
`f"{prefix.rstrip('/')}/{file_name}" if prefix else file_name`. -/
def downloadObjectKey (pfx : Option String) (fileName : String) : String :=
  match pfx with
  | some p => if p = "" then fileName else rstripSlash p ++ "/" ++ fileName
  | none => fileName

/-- The storage key from `downloads.py` line 87:
`"/".join(filter(None, [task_id, "download", object_key]))`, as a function of
the already chosen file name. -/
def downloadStorageKeyOf (taskId : String) (pfx : Option String)
    (fileName : String) : String :=
  joinSlash (([taskId, "download", downloadObjectKey pfx fileName]).filter
    fun t => t != "")

/-- The storage key of `download_video_asset` as a function of its raw
arguments. -/
def download_storage_key (taskId : String) (pfx objectName : Option String) :
    String :=
  downloadStorageKeyOf taskId pfx (downloadFileName taskId objectName)

/-- Modelled from the spec (section 4.1): the download key as the spec words
it, the slash-join of the non-empty segments
`[task_id, "download", prefix, file_name]`. -/
def downloadKeySpecJoin (taskId : String) (pfx : Option String)
    (fileName : String) : String :=
  joinSlash (([taskId, "download", pfx.getD "", fileName]).filter
    fun t => t != "")

/-! ## Audio-stage key derivation (`audio.py`, `_derive_storage_key`) -/

/-- Dropping one leading segment equal to `seg`, mirroring
`if parts and parts[0] == seg: parts = parts[1:]`. -/
def stripLead (seg : String) : List String → List String
  | [] => []
  | p :: rest => if p = seg then rest else p :: rest

/-- Transcription of `_derive_storage_key` from `audio.py`: strip a leading
`task_id` part and then a leading `"download"` part; fall back to the bare
source name when nothing remains; infer `stem + ".audio.mka"` unless an
override name is given; re-root under `"extract-audio"` keeping a non-empty
parent directory; prepend the stripped bucket prefix when present, then
`task_id`.  Returns the relative key and the full storage key, both rendered
as POSIX strings. -/
def derive_storage_key (sourceObjectPath taskId : String)
    (bucketPfx objectName : Option String) : String × String :=
  let parts := stripLead "download" (stripLead taskId (pathParts sourceObjectPath))
  let relativeKey :=
    if parts.isEmpty then pathParts (posixName (pathParts sourceObjectPath))
    else parts
  let sourceName := posixName relativeKey
  let inferredName := pyStem sourceName ++ ".audio.mka"
  let audioName := pyOr objectName inferredName
  let par := relativeKey.dropLast
  let audioRelative := "extract-audio" :: (par ++ pathParts audioName)
  let audioRelative2 :=
    match bucketPfx with
    | some p => if p = "" then audioRelative
                else pathParts (stripSlash p) ++ audioRelative
    | none => audioRelative
  (joinSlash audioRelative2, joinSlash (pathParts taskId ++ audioRelative2))

/-- Modelled from the spec (section 4.1, `derive_audio_key`): strip leading
`task_id` and `"download"` segments from the source key if present; compute
`inferred_name = stem(basename) + ".audio.mka"`; use the override name or the
inferred name; rebuild the path as `extract-audio/` plus the remaining parent
directory (omitted when empty) plus the name, then prepend the slash-trimmed
bucket prefix (if any) and `task_id`. -/
def derive_audio_key_spec (sourceKey taskId : String)
    (bucketPfx overrideName : Option String) : String × String :=
  let remaining := stripLead "download" (stripLead taskId (pathParts sourceKey))
  let base := posixName (pathParts sourceKey)
  let fileName := pyOr overrideName (pyStem base ++ ".audio.mka")
  let par := remaining.dropLast
  let rel := "extract-audio" :: (par ++ pathParts fileName)
  let rel2 :=
    match bucketPfx with
    | some p => if p = "" then rel else pathParts (stripSlash p) ++ rel
    | none => rel
  (joinSlash rel2, joinSlash (pathParts taskId ++ rel2))

/-! ## Cobalt response classification (`downloads.py`, lines 69–82) -/

/-- The fields of the Cobalt JSON payload that `download_video_asset` reads;
`none` models an absent field. -/
structure CobaltResponse where
  status : Option String
  url : Option String
  error : Option String
deriving DecidableEq

/-- A single-quote character as a string, used by the templated message. -/
def sq : String := String.singleton (Char.ofNat 39)

/-- Python `str` applied to an optional string, as interpolated by the
f-string for the unexpected-status message. -/
def pyReprOptStr : Option String → String
  | some s => s
  | none => "None"

/-- The templated message of `downloads.py` line 77:
the f-string `Unexpected Cobalt status <status>` with single quotes around
the interpolated status. -/
def unexpectedStatusMsg (status : Option String) : String :=
  "Unexpected Cobalt status " ++ sq ++ pyReprOptStr status ++ sq ++ "."

/-- The picker rejection message raised at `downloads.py` line 72. -/
def pickerMsg : String :=
  "Cobalt requires user selection of media variant; cannot auto-download."

/-- The missing-URL message raised at `downloads.py` line 82. -/
def missingUrlMsg : String := "Cobalt response missing download URL."

/-- Classification of the Cobalt payload, transcribed from lines 69–82 of
`downloads.py`: statuses outside tunnel and redirect raise (picker with its
dedicated message, anything else with the error field or the templated
message); tunnel and redirect require a non-empty url. -/
def classifyCobalt (r : CobaltResponse) : Except String String :=
  if r.status ≠ some "tunnel" ∧ r.status ≠ some "redirect" then
    if r.status = some "picker" then Except.error pickerMsg
    else Except.error (r.error.getD (unexpectedStatusMsg r.status))
  else
    match r.url with
    | none => Except.error missingUrlMsg
    | some u => if u = "" then Except.error missingUrlMsg else Except.ok u

/-! ## Download stage model (`downloads.py`, `download_video_asset`) -/

/-- The oracle for one run of the download stage: the persistent object
store (a list of keys, `object_exists` being membership per
`minio.py`), the external path resolution of the S3 client, and the outcomes
of the streaming download, the upload, and the scratch cleanup. -/
structure DownloadWorld where
  store : List String
  resolve : String → String
  streamOk : Bool
  uploadOk : Bool
  cleanupFails : Bool

/-- Terminal outcome of the download stage: a storage path together with the
reused flag of its summary artifact, a raised `CobaltDownloadError`, or a
propagated transport or storage error. -/
inductive DlOutcome where
  | ok (path : String) (reused : Bool)
  | cobaltErr (msg : String)
  | transportErr
deriving DecidableEq

/-- Observable effects of one run of the download stage. -/
structure DlRun where
  outcome : DlOutcome
  store : List String
  uploads : Nat
  streamedDownloads : Nat
  existenceChecks : Nat
  scratchDirLeft : Bool
deriving DecidableEq

/-- Transcription of `download_video_asset` (after the initial HTTP exchange
produced the payload `r`): classify the payload; derive the storage key; if
the object exists return the resolved path with a reused summary; otherwise
create a scratch directory, stream the asset, upload it, emit a new summary,
and remove the scratch, swallowing cleanup errors.  The scratch directory
survives every failure exit of the fresh-download branch because the Python
code only removes it after a successful upload. -/
def download_video_asset (r : CobaltResponse) (taskId : String)
    (pfx objectName : Option String) (w : DownloadWorld) : DlRun :=
  match classifyCobalt r with
  | Except.error m =>
    { outcome := DlOutcome.cobaltErr m, store := w.store, uploads := 0,
      streamedDownloads := 0, existenceChecks := 0, scratchDirLeft := false }
  | Except.ok _ =>
    let key := download_storage_key taskId pfx objectName
    if w.store.contains key then
      { outcome := DlOutcome.ok (w.resolve key) true, store := w.store,
        uploads := 0, streamedDownloads := 0, existenceChecks := 1,
        scratchDirLeft := false }
    else if !w.streamOk then
      { outcome := DlOutcome.transportErr, store := w.store, uploads := 0,
        streamedDownloads := 1, existenceChecks := 1, scratchDirLeft := true }
    else if !w.uploadOk then
      { outcome := DlOutcome.transportErr, store := w.store, uploads := 1,
        streamedDownloads := 1, existenceChecks := 1, scratchDirLeft := true }
    else
      { outcome := DlOutcome.ok (w.resolve key) false,
        store := key :: w.store, uploads := 1, streamedDownloads := 1,
        existenceChecks := 1, scratchDirLeft := w.cleanupFails }

/-! ## Audio extraction stage model (`audio.py`, `extract_audio_asset`) -/

/-- The oracle for one run of the audio stage: the stage arguments, the
outcome of each external call (source download, the ffmpeg invocation and the
file it leaves behind, the upload), and whether the scratch removals raise
`OSError`. -/
structure AudioEnv where
  sourceObjectPath : String
  taskId : String
  bucketPfx : Option String
  objectName : Option String
  downloadOk : Bool
  ffmpegFound : Bool
  returncode : Int
  stderrText : String
  outputSize : Option Nat
  uploadOk : Bool
  unlinkSourceFails : Bool
  unlinkAudioFails : Bool
  rmdirFailsExtra : Bool

/-- State of the stage scratch directory and the two files inside it. -/
structure Scratch where
  sourceFile : Bool
  audioFile : Bool
  dirExists : Bool
deriving DecidableEq

/-- Terminal outcome of the audio stage: a storage path, a raised
`AudioExtractionError` with its message, or a propagated storage error. -/
inductive AudioOutcome where
  | ok (path : String)
  | audioErr (msg : String)
  | otherErr
deriving DecidableEq

/-- The ffmpeg failure message built at `audio.py` lines 138–141, with the
`or`-fallback for an empty captured stderr. -/
def ffmpegFailMsg (returncode : Int) (stderrText : String) : String :=
  "FFmpeg failed with exit code " ++ toString returncode ++ ": " ++
    (if stderrText = "" then "Unknown FFmpeg error" else stderrText)

/-- The missing-binary message raised at `audio.py` line 135. -/
def ffmpegMissingMsg : String := "FFmpeg binary not found in PATH"

/-- The empty-output message raised at `audio.py` line 144. -/
def noArtifactMsg : String := "FFmpeg did not produce an audio artifact"

/-- The `try` body of `extract_audio_asset`, transcribed in code order:
download the source, run ffmpeg (a missing binary raising its dedicated
error), check the exit code, check that the output file exists and is
non-empty, upload, and return the storage key.  The second component is the
scratch state at the point the body exits. -/
def audioBody (env : AudioEnv) : AudioOutcome × Scratch :=
  let storageKey := (derive_storage_key env.sourceObjectPath env.taskId
    env.bucketPfx env.objectName).2
  if !env.downloadOk then (AudioOutcome.otherErr, ⟨false, false, true⟩)
  else if !env.ffmpegFound then
    (AudioOutcome.audioErr ffmpegMissingMsg, ⟨true, false, true⟩)
  else
    let s : Scratch := ⟨true, env.outputSize.isSome, true⟩
    if env.returncode ≠ 0 then
      (AudioOutcome.audioErr (ffmpegFailMsg env.returncode env.stderrText), s)
    else if env.outputSize = none ∨ env.outputSize = some 0 then
      (AudioOutcome.audioErr noArtifactMsg, s)
    else if !env.uploadOk then (AudioOutcome.otherErr, s)
    else (AudioOutcome.ok storageKey, s)

/-- The `finally` block of `extract_audio_asset`: unlink each existing
scratch file swallowing `OSError` per file, then remove the directory,
which fails (silently) when a file is left or the removal itself raises. -/
def audioScratchCleanup (f1 f2 f3 : Bool) (s : Scratch) : Scratch :=
  let s1 := if s.sourceFile && !f1 then { s with sourceFile := false } else s
  let s2 := if s1.audioFile && !f2 then { s1 with audioFile := false } else s1
  if !s2.sourceFile && !s2.audioFile && !f3 then { s2 with dirExists := false }
  else s2

/-- The whole stage: the body followed by the `finally` cleanup; the cleanup
never changes the outcome. -/
def extract_audio_asset (env : AudioEnv) : AudioOutcome × Scratch :=
  let r := audioBody env
  (r.1, audioScratchCleanup env.unlinkSourceFails env.unlinkAudioFails
    env.rmdirFailsExtra r.2)

/-! ## Media probe model (`downloads.py`, `_probe_media_metadata`) -/

/-- The fields of the first ffprobe stream entry that the probe reads. -/
structure FfStream where
  codecName : Option String
  width : Option Nat
  height : Option Nat
  avgFrameRate : Option String
  bitRate : Option String
deriving DecidableEq

/-- The parsed ffprobe document: the format section fields and the stream
list. -/
structure FfData where
  duration : Option String
  size : Option String
  bitRate : Option String
  streams : List FfStream
deriving DecidableEq

/-- How a probe invocation can go, per the guards of
`_probe_media_metadata`: missing file, missing ffprobe binary
(`FileNotFoundError`), non-zero exit (`CalledProcessError`), stdout that is
not parseable JSON, or a parsed document. -/
inductive ProbeInput where
  | fileMissing
  | toolMissing
  | toolFailed
  | badOutput
  | parsed (d : FfData)
deriving DecidableEq

/-- Python truthiness of an optional number (`None` and `0` are falsy). -/
def truthyNat : Option Nat → Bool
  | some n => n != 0
  | none => false

/-- Python truthiness of an optional string (`None` and `""` are falsy). -/
def truthyStr : Option String → Bool
  | some s => s != ""
  | none => false

/-- An assoc-list entry present exactly when the optional value is. -/
def optEntry (k : String) : Option String → List (String × Option String)
  | some v => [(k, some v)]
  | none => []

/-- The format-section entries, in the order the code inserts them
(presence-guarded by `in`, so an empty string value is still included). -/
def fmtEntries (d : FfData) : List (String × Option String) :=
  optEntry "duration_seconds" d.duration ++ optEntry "size_bytes" d.size ++
    optEntry "bitrate" d.bitRate

/-- The stream-section entries: nothing without a stream; with a first
stream, `codec` is always set (possibly to `None`), resolution requires
truthy width and height, frame rate must be truthy and differ from the
literal `0/0`, and the stream bitrate must be truthy. -/
def streamEntries : List FfStream → List (String × Option String)
  | [] => []
  | st :: _ =>
    [("codec", st.codecName)] ++
    (if truthyNat st.width && truthyNat st.height then
      [("resolution", some (toString (st.width.getD 0) ++ "x" ++
        toString (st.height.getD 0)))]
     else []) ++
    (if truthyStr st.avgFrameRate && (st.avgFrameRate != some "0/0") then
      [("frame_rate", st.avgFrameRate)]
     else []) ++
    (if truthyStr st.bitRate then [("video_bitrate", st.bitRate)] else [])

/-- Transcription of `_probe_media_metadata`: every early-exit guard yields
the empty mapping, and a parsed document yields the format entries followed
by the stream entries.  The function is total, mirroring that the Python
code never raises on these inputs. -/
def probe_media_metadata : ProbeInput → List (String × Option String)
  | ProbeInput.parsed d => fmtEntries d ++ streamEntries d.streams
  | _ => []

/-- The key set of a probe result. -/
def probeKeys (inp : ProbeInput) : List String :=
  (probe_media_metadata inp).map Prod.fst

/-! ## Pipeline coordinator model (`flows/stevedore.py`) -/

/-- A Python value as far as the coordinator handles one: the download
result is either a plain string (what `cobalt_video_download_flow` returns)
or a string-keyed record. -/
inductive PyValue where
  | str (s : String)
  | dict (kvs : List (String × String))
deriving DecidableEq

/-- Errors a subscript expression can raise. -/
inductive PyErr where
  | typeError
  | keyError (k : String)
deriving DecidableEq

/-- Python subscripting `v["k"]`: a `TypeError` on a string value, a
`KeyError` on a record without the key. -/
def pySubscript : PyValue → String → Except PyErr String
  | PyValue.str _, _ => Except.error PyErr.typeError
  | PyValue.dict kvs, k =>
    match kvs.lookup k with
    | some v => Except.ok v
    | none => Except.error (PyErr.keyError k)

/-- What the coordinator observes from its collaborators: the identifier and
terminal state of the awaited download run, the value that run returned, and
the identifier handed back for the dispatched audio run. -/
structure PipelineDeps where
  downloadRunId : String
  downloadStateType : String
  downloadResult : PyValue
  audioRunId : String
deriving DecidableEq

/-- Parameters of the audio-extraction dispatch. -/
structure AudioDispatch where
  sourceObjectPath : String
  taskId : String
  minioBucketBlock : String
deriving DecidableEq

/-- Observable effects of one coordinator run: which flow runs it waited
for, the audio dispatch if any, and its return value or raised error. -/
structure PipelineRun where
  awaitedRuns : List String
  audioDispatch : Option AudioDispatch
  result : Except PyErr (List (String × String))

/-- The value returned by `cobalt_video_download_flow`: the storage path
string produced by `download_video_asset`. -/
def cobalt_video_download_flow_result (path : String) : PyValue :=
  PyValue.str path

/-- Transcription of `video_pipeline_flow`: dispatch the download run, wait
for it (the only awaited run), take its result and subscript it with
`"video"`, dispatch the audio run without waiting for it, and return the
record of the download run id, the download terminal state, and the audio
run id.  A subscript error propagates and no audio run is dispatched. -/
def video_pipeline_flow (deps : PipelineDeps) (taskId minioBlock : String) :
    PipelineRun :=
  match pySubscript deps.downloadResult "video" with
  | Except.error e =>
    { awaitedRuns := [deps.downloadRunId], audioDispatch := none,
      result := Except.error e }
  | Except.ok v =>
    { awaitedRuns := [deps.downloadRunId],
      audioDispatch := some ⟨v, taskId, minioBlock⟩,
      result := Except.ok [("download_flow_run_id", deps.downloadRunId),
        ("download_state", deps.downloadStateType),
        ("audio_flow_run_id", deps.audioRunId)] }

/-! ## Claim C4: picker rejection -/

/-- C4: for every extraction-service response whose status field is
"picker", the download stage raises the dedicated `CobaltDownloadError`
protocol message and performs no storage check, no streaming download and no
upload, leaving the store untouched and creating no scratch directory. -/
theorem picker_always_rejected (r : CobaltResponse) (taskId : String)
    (pfx objectName : Option String) (w : DownloadWorld)
    (h : r.status = some "picker") :
    download_video_asset r taskId pfx objectName w =
      { outcome := DlOutcome.cobaltErr pickerMsg, store := w.store,
        uploads := 0, streamedDownloads := 0, existenceChecks := 0,
        scratchDirLeft := false } := by
  simp [download_video_asset, classifyCobalt, h]

/-- C4 witness: the picker rejection at a concrete response and world. -/
theorem picker_always_rejected_w :
    (⟨some "picker", some "http://x", none⟩ : CobaltResponse).status =
      some "picker" ∧
    download_video_asset ⟨some "picker", some "http://x", none⟩ "task-123"
        (some "videos") (some "video.mp4") ⟨[], id, true, true, false⟩ =
      { outcome := DlOutcome.cobaltErr pickerMsg, store := [], uploads := 0,
        streamedDownloads := 0, existenceChecks := 0,
        scratchDirLeft := false } :=
  ⟨rfl, picker_always_rejected _ "task-123" _ _ _ rfl⟩

/-! ## Claim C10: implicit default file name -/

/-- C10: when the object name is omitted (None or empty), the file name used
for key derivation is exactly `video_` + task_id + `.mp4`, so the derived
storage key coincides with the key of an invocation without an explicit
object name: repeated runs without one derive the identical key. -/
theorem default_object_name (taskId : String) (pfx objectName : Option String)
    (h : objectName = none ∨ objectName = some "") :
    downloadFileName taskId objectName = "video_" ++ taskId ++ ".mp4" ∧
    download_storage_key taskId pfx objectName =
      download_storage_key taskId pfx none := by
  rcases h with h | h <;> subst h <;> exact ⟨rfl, rfl⟩

/-- C10 witness: the default file name at a concrete task id and prefix,
with the empty-string form of an omitted name. -/
theorem default_object_name_w :
    ((some "" : Option String) = none ∨ (some "" : Option String) = some "") ∧
    (downloadFileName "task-123" (some "") = "video_task-123.mp4" ∧
      download_storage_key "task-123" (some "videos") (some "") =
        download_storage_key "task-123" (some "videos") none) :=
  ⟨Or.inr rfl, default_object_name "task-123" (some "videos") (some "") (Or.inr rfl)⟩

/-! ## Claim C6: the coordinator contract -/

/-- C6: the coordinator awaits only the download run, but it subscripts the
download result with the key "video"; the repository download flow returns a
plain string storage path, so for every such result the coordinator raises a
`TypeError` and never dispatches the audio run, instead of passing the
output key to the audio extraction unit as the spec states. -/
theorem pipeline_type_error_on_string_result
    (dlId stType path audioId taskId minioBlock : String) :
    video_pipeline_flow
        ⟨dlId, stType, cobalt_video_download_flow_result path, audioId⟩
        taskId minioBlock =
      { awaitedRuns := [dlId], audioDispatch := none,
        result := Except.error PyErr.typeError } := rfl

/-! ## Claim C1: idempotency of the download stage -/

/-- C1: with a downloadable Cobalt response, a store that does not yet hold
the derived key, and working stream and upload channels, the first
invocation uploads exactly once and returns the resolved storage path with a
fresh summary; a second invocation with identical arguments against the
persisted store performs no streaming download and no upload, returns the
same storage path, and is classified reused in its summary, for one upload
in total. -/
theorem download_stage_idempotent (r : CobaltResponse) (taskId : String)
    (pfx objectName : Option String) (w : DownloadWorld) (u : String)
    (hclass : classifyCobalt r = Except.ok u)
    (habsent : w.store.contains (download_storage_key taskId pfx objectName)
      = false)
    (hstream : w.streamOk = true) (hupload : w.uploadOk = true) :
    (download_video_asset r taskId pfx objectName w).outcome =
      DlOutcome.ok (w.resolve (download_storage_key taskId pfx objectName))
        false ∧
    (download_video_asset r taskId pfx objectName w).uploads = 1 ∧
    (download_video_asset r taskId pfx objectName
        { w with store := (download_video_asset r taskId pfx objectName
          w).store }).outcome =
      DlOutcome.ok (w.resolve (download_storage_key taskId pfx objectName))
        true ∧
    (download_video_asset r taskId pfx objectName
        { w with store := (download_video_asset r taskId pfx objectName
          w).store }).uploads = 0 ∧
    (download_video_asset r taskId pfx objectName
        { w with store := (download_video_asset r taskId pfx objectName
          w).store }).streamedDownloads = 0 ∧
    (download_video_asset r taskId pfx objectName
        { w with store := (download_video_asset r taskId pfx objectName
          w).store }).store =
      (download_video_asset r taskId pfx objectName w).store := by
  have habs : download_storage_key taskId pfx objectName ∉ w.store := by
    simpa using habsent
  simp [download_video_asset, hclass, habs, hstream, hupload]

/-- C1 witness: both invocations at the concrete inputs of the repository
test `test_download_video_asset_skips_when_object_exists`, starting from an
empty store. -/
theorem download_stage_idempotent_w :
    classifyCobalt ⟨some "redirect", some "http://download.test/video", none⟩
      = Except.ok "http://download.test/video" ∧
    (download_video_asset
        ⟨some "redirect", some "http://download.test/video", none⟩ "task-123"
        (some "videos") (some "video.mp4")
        ⟨[], id, true, true, false⟩).outcome =
      DlOutcome.ok "task-123/download/videos/video.mp4" false ∧
    (download_video_asset
        ⟨some "redirect", some "http://download.test/video", none⟩ "task-123"
        (some "videos") (some "video.mp4")
        ⟨["task-123/download/videos/video.mp4"], id, true, true,
          false⟩).outcome =
      DlOutcome.ok "task-123/download/videos/video.mp4" true := by
  have h := download_stage_idempotent
    ⟨some "redirect", some "http://download.test/video", none⟩ "task-123"
    (some "videos") (some "video.mp4") ⟨[], id, true, true, false⟩
    "http://download.test/video" rfl (by decide) rfl rfl
  exact ⟨rfl, h.1, by
    have h2 := h.2.2.1
    simpa using h2⟩

/-! ## Claim C3: download key derivation -/

/-- rstrip of a string that does not end in a slash is the identity. -/
theorem rstripSlash_eq_self (p : String) (h : endsWithSlash p = false) :
    rstripSlash p = p := by
  unfold endsWithSlash at h
  unfold rstripSlash
  cases hr : p.data.reverse with
  | nil =>
    have hd : p.data = [] := by
      have := congrArg List.reverse hr
      simpa using this
    cases p with
    | mk d =>
      simp only at hd
      subst hd
      rfl
  | cons c rest =>
    have hlast : p.data.getLast? = some c := by
      rw [← List.head?_reverse, hr]
      rfl
    have hc : (c == '/') = false := by
      rw [hlast] at h
      simpa using h
    have hd : List.dropWhile (fun ch => ch == '/') (c :: rest) = c :: rest := by
      simp [List.dropWhile_cons, hc]
    rw [hd, ← hr, List.reverse_reverse]

/-- Appending around a slash never yields the empty string. -/
theorem append_slash_ne_empty (s t : String) : s ++ "/" ++ t ≠ "" := by
  intro h
  have h2 := congrArg String.data h
  simp [String.data_append] at h2

/-- C3 counterexample: with the bucket prefix `videos/` (carrying a trailing
slash) the code right-strips the slash, so the computed key differs from the
slash-join of the non-empty segments `[task_id, "download", prefix,
file_name]` stated by the claim. -/
theorem download_key_join_fails_on_trailing_slash :
    downloadStorageKeyOf "task-123" (some "videos/") "video.mp4" =
      "task-123/download/videos/video.mp4" ∧
    downloadKeySpecJoin "task-123" (some "videos/") "video.mp4" =
      "task-123/download/videos//video.mp4" ∧
    (downloadStorageKeyOf "task-123" (some "videos/") "video.mp4" =
        downloadKeySpecJoin "task-123" (some "videos/") "video.mp4" →
      False) := by
  refine ⟨by decide, by decide, by decide⟩

/-- C3 amended: for every task id, file name, and bucket prefix that is
absent, empty, or free of a trailing slash, the storage key computed by the
download stage equals the slash-join of the non-empty segments
`[task_id, "download", prefix, file_name]`, provided the file name is
non-empty; in particular task id `task-123`, prefix `videos` and object name
`video.mp4` yield `task-123/download/videos/video.mp4`. -/
theorem download_key_join (taskId : String) (pfx : Option String)
    (fileName : String)
    (hpfx : pfx = none ∨ pfx = some "" ∨
      ∃ p, pfx = some p ∧ endsWithSlash p = false)
    (hfn : fileName ≠ "") :
    downloadStorageKeyOf taskId pfx fileName =
      downloadKeySpecJoin taskId pfx fileName := by
  rcases hpfx with h | h | ⟨p, h, hslash⟩ <;> subst h
  · by_cases ht : taskId = "" <;>
      simp [downloadStorageKeyOf, downloadKeySpecJoin, downloadObjectKey,
        joinSlash, ht, hfn]
  · by_cases ht : taskId = "" <;>
      simp [downloadStorageKeyOf, downloadKeySpecJoin, downloadObjectKey,
        joinSlash, ht, hfn]
  · by_cases hp : p = ""
    · subst hp
      by_cases ht : taskId = "" <;>
        simp [downloadStorageKeyOf, downloadKeySpecJoin, downloadObjectKey,
          joinSlash, ht, hfn]
    · have hne := append_slash_ne_empty (rstripSlash p) fileName
      rw [rstripSlash_eq_self p hslash] at hne
      by_cases ht : taskId = "" <;>
        simp [downloadStorageKeyOf, downloadKeySpecJoin, downloadObjectKey,
          joinSlash, ht, hfn, hp, hne, rstripSlash_eq_self p hslash]

/-- C3 witness: the amended key equation at the example instance of the
claim, whose derived key is `task-123/download/videos/video.mp4`. -/
theorem download_key_join_w :
    ((some "videos" : Option String) = none ∨
      (some "videos" : Option String) = some "" ∨
      ∃ p, (some "videos" : Option String) = some p ∧
        endsWithSlash p = false) ∧
    ("video.mp4" : String) ≠ "" ∧
    downloadStorageKeyOf "task-123" (some "videos") "video.mp4" =
      downloadKeySpecJoin "task-123" (some "videos") "video.mp4" ∧
    downloadStorageKeyOf "task-123" (some "videos") "video.mp4" =
      "task-123/download/videos/video.mp4" :=
  ⟨Or.inr (Or.inr ⟨"videos", rfl, by decide⟩), by decide,
    download_key_join "task-123" (some "videos") "video.mp4"
      (Or.inr (Or.inr ⟨"videos", rfl, by decide⟩)) (by decide),
    by decide⟩

/-! ## Claim C5: extraction-response failure classification -/

/-- C5 counterexample: a redirect response that carries an explicit error
field is not classified as a failure — the download stage proceeds and
succeeds, ignoring the error message, contrary to the claim that any
response carrying an error field is a failure with that message. -/
theorem error_field_ignored_on_redirect :
    (download_video_asset ⟨some "redirect", some "http://x", some "boom"⟩
        "t" none none ⟨[], id, true, true, false⟩).outcome =
      DlOutcome.ok "t/download/video_t.mp4" false := by
  decide

/-- C5 amended: a tunnel or redirect response with a missing or empty url
raises the protocol error; a status outside tunnel, redirect and picker
raises a failure carrying the service-supplied error message, defaulting to
the templated unexpected-status message when the error field is absent; the
error field is only consulted for statuses outside tunnel, redirect and
picker (on success statuses it is ignored). -/
theorem cobalt_failure_classification (r : CobaltResponse) (taskId : String)
    (pfx objectName : Option String) (w : DownloadWorld) :
    ((r.status = some "tunnel" ∨ r.status = some "redirect") →
      (r.url = none ∨ r.url = some "") →
      (download_video_asset r taskId pfx objectName w).outcome =
        DlOutcome.cobaltErr missingUrlMsg) ∧
    ((r.status ≠ some "tunnel" ∧ r.status ≠ some "redirect" ∧
        r.status ≠ some "picker") →
      (download_video_asset r taskId pfx objectName w).outcome =
        DlOutcome.cobaltErr (r.error.getD (unexpectedStatusMsg r.status))) ∧
    (∀ m, (r.status ≠ some "tunnel" ∧ r.status ≠ some "redirect" ∧
        r.status ≠ some "picker") → r.error = some m →
      (download_video_asset r taskId pfx objectName w).outcome =
        DlOutcome.cobaltErr m) := by
  refine ⟨?_, ?_, ?_⟩
  · rintro (h | h) (hu | hu) <;>
      simp [download_video_asset, classifyCobalt, h, hu]
  · rintro ⟨h1, h2, h3⟩
    simp [download_video_asset, classifyCobalt, h1, h2, h3]
  · rintro m ⟨h1, h2, h3⟩ he
    simp [download_video_asset, classifyCobalt, h1, h2, h3, he]

/-- C5 witness: the three amended clauses at concrete responses — a
redirect without url, an unknown status without an error field, and an
unknown status with an error field. -/
theorem cobalt_failure_classification_w :
    (download_video_asset ⟨some "redirect", none, none⟩ "t" none none
        ⟨[], id, true, true, false⟩).outcome =
      DlOutcome.cobaltErr missingUrlMsg ∧
    (download_video_asset ⟨some "rate-limit", none, none⟩ "t" none none
        ⟨[], id, true, true, false⟩).outcome =
      DlOutcome.cobaltErr (unexpectedStatusMsg (some "rate-limit")) ∧
    (download_video_asset ⟨some "rate-limit", none, some "boom"⟩ "t" none
        none ⟨[], id, true, true, false⟩).outcome =
      DlOutcome.cobaltErr "boom" :=
  ⟨(cobalt_failure_classification ⟨some "redirect", none, none⟩ "t" none none
      ⟨[], id, true, true, false⟩).1 (Or.inr rfl) (Or.inl rfl),
   (cobalt_failure_classification ⟨some "rate-limit", none, none⟩ "t" none
      none ⟨[], id, true, true, false⟩).2.1 (by decide),
   (cobalt_failure_classification ⟨some "rate-limit", none, some "boom"⟩ "t"
      none none ⟨[], id, true, true, false⟩).2.2 "boom" (by decide) rfl⟩

/-! ## Claim C7: scratch cleanup on exit paths -/

/-- Replacing the cleanup failure flags of an audio-stage oracle, leaving
every other outcome unchanged. -/
def setCleanupFlags (env : AudioEnv) (a b c : Bool) : AudioEnv :=
  { env with
    unlinkSourceFails := a
    unlinkAudioFails := b
    rmdirFailsExtra := c }

/-- When no removal raises, the finally block of the audio stage always
leaves an empty, removed scratch directory, whatever state the body exited
in. -/
theorem audioScratchCleanup_noFail (s : Scratch) :
    audioScratchCleanup false false false s = ⟨false, false, false⟩ := by
  rcases s with ⟨x, y, z⟩
  cases x <;> cases y <;> cases z <;> rfl

/-- C7 counterexample: a failed streaming download in the download stage
leaves the scratch directory behind — the stage only removes its scratch on
the success path, so cleanup does not occur on both exit paths of both
stages as claimed. -/
theorem download_scratch_left_on_failure :
    (download_video_asset ⟨some "redirect", some "http://x", none⟩ "t" none
        none ⟨[], id, false, true, false⟩).outcome = DlOutcome.transportErr ∧
    (download_video_asset ⟨some "redirect", some "http://x", none⟩ "t" none
        none ⟨[], id, false, true, false⟩).scratchDirLeft = true := by
  decide

/-- C7 amended: the audio stage removes its scratch files and directory on
every exit path whenever the removals themselves succeed, its cleanup
failures are swallowed and never alter the stage outcome; the download stage
removes its scratch only on the success exit path (swallowing cleanup
failures there), while a failure during streaming leaves the scratch
directory behind. -/
theorem scratch_cleanup (env : AudioEnv) (a b c : Bool) (r : CobaltResponse)
    (taskId : String) (pfx objectName : Option String) (w : DownloadWorld) :
    (env.unlinkSourceFails = false → env.unlinkAudioFails = false →
      env.rmdirFailsExtra = false →
      (extract_audio_asset env).2 = ⟨false, false, false⟩) ∧
    ((extract_audio_asset (setCleanupFlags env a b c)).1 =
      (extract_audio_asset env).1) ∧
    (w.cleanupFails = false → ∀ p red,
      (download_video_asset r taskId pfx objectName w).outcome =
        DlOutcome.ok p red →
      (download_video_asset r taskId pfx objectName w).scratchDirLeft =
        false) ∧
    (∀ u, classifyCobalt r = Except.ok u →
      w.store.contains (download_storage_key taskId pfx objectName) = false →
      w.streamOk = false →
      (download_video_asset r taskId pfx objectName w).scratchDirLeft =
        true) := by
  refine ⟨?_, rfl, ?_, ?_⟩
  · intro h1 h2 h3
    simp [extract_audio_asset, h1, h2, h3, audioScratchCleanup_noFail]
  · intro hcf p red h
    unfold download_video_asset at h ⊢
    cases hcl : classifyCobalt r with
    | error m => rfl
    | ok u =>
      rw [hcl] at h
      by_cases hmem : download_storage_key taskId pfx objectName ∈ w.store
      · simp [hmem]
      · cases hs : w.streamOk with
        | false => simp [hmem, hs] at h
        | true =>
          cases hu : w.uploadOk with
          | false => simp [hmem, hs, hu] at h
          | true => simp [hmem, hs, hu, hcf]
  · intro u hcl habsent hs
    have habs : download_storage_key taskId pfx objectName ∉ w.store := by
      simpa using habsent
    simp [download_video_asset, hcl, habs, hs]

/-- C7 witness: the amended clauses at concrete runs — a successful audio
run whose scratch ends removed, a successful download run with no scratch
left, and a stream-failed download run whose scratch survives. -/
theorem scratch_cleanup_w :
    (extract_audio_asset ⟨"t/download/v.mp4", "t", none, none, true, true, 0,
        "", some 5, true, false, false, false⟩).2 = ⟨false, false, false⟩ ∧
    (download_video_asset ⟨some "redirect", some "u", none⟩ "t" none none
        ⟨[], id, true, true, false⟩).scratchDirLeft = false ∧
    (download_video_asset ⟨some "redirect", some "u", none⟩ "t" none none
        ⟨[], id, false, true, false⟩).scratchDirLeft = true :=
  ⟨(scratch_cleanup ⟨"t/download/v.mp4", "t", none, none, true, true, 0, "",
      some 5, true, false, false, false⟩ false false false
      ⟨some "redirect", some "u", none⟩ "t" none none
      ⟨[], id, true, true, false⟩).1 rfl rfl rfl,
   (scratch_cleanup ⟨"t/download/v.mp4", "t", none, none, true, true, 0, "",
      some 5, true, false, false, false⟩ false false false
      ⟨some "redirect", some "u", none⟩ "t" none none
      ⟨[], id, true, true, false⟩).2.2.1 rfl "t/download/video_t.mp4" false
      (by decide),
   (scratch_cleanup ⟨"t/download/v.mp4", "t", none, none, true, true, 0, "",
      some 5, true, false, false, false⟩ false false false
      ⟨some "redirect", some "u", none⟩ "t" none none
      ⟨[], id, false, true, false⟩).2.2.2 "u" rfl (by decide) rfl⟩

/-! ## Claim C9: audio output validation -/

/-- Whether `pat` occurs as a contiguous run inside `l`. -/
def hasSubstr (pat : List Char) : List Char → Bool
  | [] => pat.isEmpty
  | c :: cs => pat.isPrefixOf (c :: cs) || hasSubstr pat cs

/-- The missing-binary message differs from every ran-and-failed message:
the latter always contains a colon, the former never does. -/
theorem ffmpegMissingMsg_ne_failMsg (rc : Int) (st : String) :
    ffmpegMissingMsg ≠ ffmpegFailMsg rc st := by
  intro h
  have hc : ':' ∈ (ffmpegFailMsg rc st).data := by
    simp [ffmpegFailMsg, String.data_append, List.mem_append]
  rw [← h] at hc
  exact absurd hc (by decide)

/-- C9 counterexample: when the tool exits non-zero with no captured
diagnostics, the raised message embeds the code's fallback text
`Unknown FFmpeg error`; the claim's quoted fallback `Unknown error` does not
occur in the message. -/
theorem ffmpeg_fallback_text_differs :
    (extract_audio_asset ⟨"t/download/v.mp4", "t", none, none, true, true, 1,
        "", none, true, false, false, false⟩).1 =
      AudioOutcome.audioErr
        "FFmpeg failed with exit code 1: Unknown FFmpeg error" ∧
    hasSubstr ("Unknown error").data
      ("FFmpeg failed with exit code 1: Unknown FFmpeg error").data = false ∧
    hasSubstr ("Unknown FFmpeg error").data
      ("FFmpeg failed with exit code 1: Unknown FFmpeg error").data = true := by
  refine ⟨rfl, by decide, by decide⟩

/-- C9 amended: a non-zero tool exit raises an `AudioExtractionError`
embedding the exit code and the captured diagnostics, falling back to the
text `Unknown FFmpeg error` when none were captured; a missing or
zero-length output after a zero exit raises the fixed no-artifact message; a
missing tool binary raises a dedicated message distinct from every
ran-and-failed message; and a storage path is returned only when none of
these conditions hold. -/
theorem audio_output_validation (env : AudioEnv) (rc : Int) (st p : String) :
    (env.downloadOk = true → env.ffmpegFound = false →
      (extract_audio_asset env).1 = AudioOutcome.audioErr ffmpegMissingMsg) ∧
    (env.downloadOk = true → env.ffmpegFound = true → env.returncode ≠ 0 →
      (extract_audio_asset env).1 =
        AudioOutcome.audioErr (ffmpegFailMsg env.returncode env.stderrText)) ∧
    (env.downloadOk = true → env.ffmpegFound = true → env.returncode = 0 →
      (env.outputSize = none ∨ env.outputSize = some 0) →
      (extract_audio_asset env).1 = AudioOutcome.audioErr noArtifactMsg) ∧
    (ffmpegMissingMsg ≠ ffmpegFailMsg rc st ∧
      ffmpegMissingMsg ≠ noArtifactMsg) ∧
    ((extract_audio_asset env).1 = AudioOutcome.ok p →
      env.downloadOk = true ∧ env.ffmpegFound = true ∧
      env.returncode = 0 ∧ env.outputSize ≠ none ∧ env.outputSize ≠ some 0 ∧
      env.uploadOk = true ∧
      p = (derive_storage_key env.sourceObjectPath env.taskId env.bucketPfx
        env.objectName).2) := by
  refine ⟨?_, ?_, ?_, ⟨ffmpegMissingMsg_ne_failMsg rc st, by decide⟩, ?_⟩
  · intro h1 h2
    simp [extract_audio_asset, audioBody, h1, h2]
  · intro h1 h2 h3
    simp [extract_audio_asset, audioBody, h1, h2, h3]
  · intro h1 h2 h3 h4
    rcases h4 with h4 | h4 <;>
      simp [extract_audio_asset, audioBody, h1, h2, h3, h4]
  · intro hok
    cases h1 : env.downloadOk with
    | false => simp [extract_audio_asset, audioBody, h1] at hok
    | true =>
      cases h2 : env.ffmpegFound with
      | false => simp [extract_audio_asset, audioBody, h1, h2] at hok
      | true =>
        by_cases h3 : env.returncode = 0
        · by_cases h4 : env.outputSize = none ∨ env.outputSize = some 0
          · rcases h4 with h4 | h4 <;>
              simp [extract_audio_asset, audioBody, h1, h2, h3, h4] at hok
          · push_neg at h4
            cases h5 : env.uploadOk with
            | false =>
              simp [extract_audio_asset, audioBody, h1, h2, h3, h4.1, h4.2,
                h5] at hok
            | true =>
              have hp : p = (derive_storage_key env.sourceObjectPath
                  env.taskId env.bucketPfx env.objectName).2 := by
                simp [extract_audio_asset, audioBody, h1, h2, h3, h4.1, h4.2,
                  h5] at hok
                exact hok.symm
              exact ⟨rfl, rfl, h3, h4.1, h4.2, rfl, hp⟩
        · simp [extract_audio_asset, audioBody, h1, h2, h3] at hok

/-- C9 witness: the amended clauses at concrete runs — a missing binary, a
non-zero exit with diagnostics, a zero exit with a zero-length output, and
the message distinctness at exit code 1 with empty diagnostics. -/
theorem audio_output_validation_w :
    (extract_audio_asset ⟨"t/download/v.mp4", "t", none, none, true, false, 0,
        "", none, true, false, false, false⟩).1 =
      AudioOutcome.audioErr ffmpegMissingMsg ∧
    (extract_audio_asset ⟨"t/download/v.mp4", "t", none, none, true, true, 2,
        "boom", some 9, true, false, false, false⟩).1 =
      AudioOutcome.audioErr (ffmpegFailMsg 2 "boom") ∧
    (extract_audio_asset ⟨"t/download/v.mp4", "t", none, none, true, true, 0,
        "", some 0, true, false, false, false⟩).1 =
      AudioOutcome.audioErr noArtifactMsg ∧
    ffmpegMissingMsg ≠ ffmpegFailMsg 1 "" :=
  ⟨(audio_output_validation ⟨"t/download/v.mp4", "t", none, none, true, false,
      0, "", none, true, false, false, false⟩ 1 "" "").1 rfl rfl,
   (audio_output_validation ⟨"t/download/v.mp4", "t", none, none, true, true,
      2, "boom", some 9, true, false, false, false⟩ 1 "" "").2.1 rfl rfl
      (by decide),
   (audio_output_validation ⟨"t/download/v.mp4", "t", none, none, true, true,
      0, "", some 0, true, false, false, false⟩ 1 "" "").2.2.1 rfl rfl rfl
      (Or.inr rfl),
   (audio_output_validation ⟨"t/download/v.mp4", "t", none, none, true, true,
      0, "", some 0, true, false, false, false⟩ 1 "" "").2.2.2.1.1⟩

/-! ## Claim C8: media probe contract -/

/-- Keys contributed by one optional format field. -/
theorem keys_optEntry (k2 : String) (v : Option String) :
    (optEntry k2 v).map Prod.fst = if v.isSome then [k2] else [] := by
  cases v <;> rfl

/-- Keys contributed by the first stream entry. -/
theorem keys_streamEntries_cons (st : FfStream) (rest : List FfStream) :
    (streamEntries (st :: rest)).map Prod.fst =
      "codec" ::
        ((if truthyNat st.width && truthyNat st.height then ["resolution"]
          else []) ++
         (if truthyStr st.avgFrameRate && (st.avgFrameRate != some "0/0") then
           ["frame_rate"]
          else []) ++
         (if truthyStr st.bitRate then ["video_bitrate"] else [])) := by
  unfold streamEntries
  by_cases h1 : (truthyNat st.width && truthyNat st.height) = true <;>
    by_cases h2 : (truthyStr st.avgFrameRate &&
      (st.avgFrameRate != some "0/0")) = true <;>
    by_cases h3 : truthyStr st.bitRate = true <;>
    simp [h1, h2, h3]

/-- The key list of a parsed probe result, segment by segment. -/
theorem probeKeys_parsed (d : FfData) :
    probeKeys (ProbeInput.parsed d) =
      ((if d.duration.isSome then ["duration_seconds"] else []) ++
       (if d.size.isSome then ["size_bytes"] else []) ++
       (if d.bitRate.isSome then ["bitrate"] else [])) ++
      (streamEntries d.streams).map Prod.fst := by
  simp [probeKeys, probe_media_metadata, fmtEntries, keys_optEntry]

set_option maxHeartbeats 1600000 in
/-- Characterisation of the keys present in a parsed probe result. -/
theorem mem_probeKeys (k : String) (d : FfData) :
    k ∈ probeKeys (ProbeInput.parsed d) ↔
      (k = "duration_seconds" ∧ d.duration.isSome = true) ∨
      (k = "size_bytes" ∧ d.size.isSome = true) ∨
      (k = "bitrate" ∧ d.bitRate.isSome = true) ∨
      (∃ st rest, d.streams = st :: rest ∧
        (k = "codec" ∨
         (k = "resolution" ∧
           (truthyNat st.width && truthyNat st.height) = true) ∨
         (k = "frame_rate" ∧ (truthyStr st.avgFrameRate &&
           (st.avgFrameRate != some "0/0")) = true) ∨
         (k = "video_bitrate" ∧ truthyStr st.bitRate = true))) := by
  rw [probeKeys_parsed]
  cases hs : d.streams with
  | nil =>
    by_cases h1 : d.duration.isSome = true <;>
      by_cases h2 : d.size.isSome = true <;>
      by_cases h3 : d.bitRate.isSome = true <;>
      simp [streamEntries, h1, h2, h3]
  | cons st rest =>
    rw [keys_streamEntries_cons]
    by_cases h1 : d.duration.isSome = true <;>
      by_cases h2 : d.size.isSome = true <;>
      by_cases h3 : d.bitRate.isSome = true <;>
      by_cases h4 : truthyNat st.width = true <;>
      by_cases h5 : truthyNat st.height = true <;>
      by_cases h6 : truthyStr st.avgFrameRate = true <;>
      by_cases h7 : st.avgFrameRate = some "0/0" <;>
      by_cases h8 : truthyStr st.bitRate = true <;>
      simp [h1, h2, h3, h4, h5, h6, h7, h8, bne_iff_ne]

/-- C8 counterexample: a parsed document whose stream entry has no
codec_name still yields a mapping containing the key codec, defaulted to
None — the attribute is not omitted, contrary to the claim. -/
theorem probe_codec_defaulted :
    probe_media_metadata (ProbeInput.parsed ⟨some "1.0", some "5", none,
        [⟨none, none, none, none, none⟩]⟩) =
      [("duration_seconds", some "1.0"), ("size_bytes", some "5"),
        ("codec", none)] ∧
    "codec" ∈ probeKeys (ProbeInput.parsed ⟨some "1.0", some "5", none,
        [⟨none, none, none, none, none⟩]⟩) :=
  ⟨rfl, by decide⟩

/-- C8 amended: the probe never raises (it is a total function of the
modelled invocation outcomes); it returns the empty mapping when the file
does not exist, the tool binary is missing, the tool exits non-zero, or the
output is unparseable; a frame rate of literal 0/0 is omitted; and absent
attributes are omitted from the result — except codec, which is always
present (possibly as None) whenever a stream entry exists. -/
theorem probe_resilience (d : FfData) (st : FfStream)
    (rest : List FfStream) :
    (probe_media_metadata ProbeInput.fileMissing = [] ∧
     probe_media_metadata ProbeInput.toolMissing = [] ∧
     probe_media_metadata ProbeInput.toolFailed = [] ∧
     probe_media_metadata ProbeInput.badOutput = []) ∧
    (d.streams = st :: rest → st.avgFrameRate = some "0/0" →
      "frame_rate" ∉ probeKeys (ProbeInput.parsed d)) ∧
    (d.duration = none →
      "duration_seconds" ∉ probeKeys (ProbeInput.parsed d)) ∧
    (d.size = none → "size_bytes" ∉ probeKeys (ProbeInput.parsed d)) ∧
    (d.bitRate = none → "bitrate" ∉ probeKeys (ProbeInput.parsed d)) ∧
    (d.streams = [] → "codec" ∉ probeKeys (ProbeInput.parsed d) ∧
      "resolution" ∉ probeKeys (ProbeInput.parsed d) ∧
      "frame_rate" ∉ probeKeys (ProbeInput.parsed d) ∧
      "video_bitrate" ∉ probeKeys (ProbeInput.parsed d)) ∧
    (d.streams = st :: rest →
      ("codec", st.codecName) ∈ probe_media_metadata (ProbeInput.parsed d)) ∧
    (d.streams = st :: rest →
      (truthyNat st.width && truthyNat st.height) = false →
      "resolution" ∉ probeKeys (ProbeInput.parsed d)) ∧
    (d.streams = st :: rest → truthyStr st.avgFrameRate = false →
      "frame_rate" ∉ probeKeys (ProbeInput.parsed d)) ∧
    (d.streams = st :: rest → truthyStr st.bitRate = false →
      "video_bitrate" ∉ probeKeys (ProbeInput.parsed d)) := by
  refine ⟨⟨rfl, rfl, rfl, rfl⟩, ?_, ?_, ?_, ?_, ?_, ?_, ?_, ?_, ?_⟩
  · intro hs hfr
    rw [mem_probeKeys]
    simp [hs, hfr]
  · intro h
    rw [mem_probeKeys]
    simp [h]
  · intro h
    rw [mem_probeKeys]
    simp [h]
  · intro h
    rw [mem_probeKeys]
    simp [h]
  · intro h
    refine ⟨?_, ?_, ?_, ?_⟩ <;>
      · rw [mem_probeKeys]
        simp [h]
  · intro hs
    simp [probe_media_metadata, streamEntries, hs]
  · intro hs hres
    rw [mem_probeKeys]
    cases hw : truthyNat st.width with
    | false => simp [hs, hw]
    | true =>
      cases hh : truthyNat st.height with
      | false => simp [hs, hh]
      | true =>
        rw [hw, hh] at hres
        simp at hres
  · intro hs hfr
    rw [mem_probeKeys]
    simp [hs, hfr]
  · intro hs hbr
    rw [mem_probeKeys]
    simp [hs, hbr]

/-- C8 witness: the amended clauses at a concrete parsed document whose
stream reports a 0/0 frame rate and no codec, size, bitrate or resolution
data. -/
theorem probe_resilience_w :
    "frame_rate" ∉ probeKeys (ProbeInput.parsed ⟨some "1.0", none, none,
      [⟨none, none, none, some "0/0", none⟩]⟩) ∧
    "size_bytes" ∉ probeKeys (ProbeInput.parsed ⟨some "1.0", none, none,
      [⟨none, none, none, some "0/0", none⟩]⟩) ∧
    ("codec", (none : Option String)) ∈ probe_media_metadata
      (ProbeInput.parsed ⟨some "1.0", none, none,
        [⟨none, none, none, some "0/0", none⟩]⟩) ∧
    "resolution" ∉ probeKeys (ProbeInput.parsed ⟨some "1.0", none, none,
      [⟨none, none, none, some "0/0", none⟩]⟩) :=
  ⟨(probe_resilience ⟨some "1.0", none, none,
      [⟨none, none, none, some "0/0", none⟩]⟩
      ⟨none, none, none, some "0/0", none⟩ []).2.1 rfl rfl,
   (probe_resilience ⟨some "1.0", none, none,
      [⟨none, none, none, some "0/0", none⟩]⟩
      ⟨none, none, none, some "0/0", none⟩ []).2.2.2.1 rfl,
   (probe_resilience ⟨some "1.0", none, none,
      [⟨none, none, none, some "0/0", none⟩]⟩
      ⟨none, none, none, some "0/0", none⟩ []).2.2.2.2.2.2.1 rfl,
   (probe_resilience ⟨some "1.0", none, none,
      [⟨none, none, none, some "0/0", none⟩]⟩
      ⟨none, none, none, some "0/0", none⟩ []).2.2.2.2.2.2.2.1 rfl rfl⟩

/-! ## Claim C2: audio key derivation -/

/-- Chunks produced by slash-splitting contain no slash, provided the
accumulator holds none. -/
theorem splitSlashAux_mem_no_slash (cs : List Char) :
    ∀ (acc : List Char), '/' ∉ acc →
      ∀ chunk ∈ splitSlashAux cs acc, '/' ∉ chunk := by
  induction cs with
  | nil =>
    intro acc hacc chunk hm
    simp [splitSlashAux] at hm
    subst hm
    simpa using hacc
  | cons c cs ih =>
    intro acc hacc chunk hm
    by_cases hc : c = '/'
    · rw [splitSlashAux, if_pos hc] at hm
      rcases List.mem_cons.mp hm with h | h
      · subst h
        simpa using hacc
      · exact ih [] (by simp) chunk h
    · rw [splitSlashAux, if_neg hc] at hm
      refine ih (c :: acc) ?_ chunk hm
      simp only [List.mem_cons]
      rintro (h | h)
      · exact hc h.symm
      · exact hacc h

/-- Slash-splitting a slash-free character list yields one chunk. -/
theorem splitSlashAux_no_slash_input (cs : List Char) :
    ∀ (acc : List Char), '/' ∉ cs →
      splitSlashAux cs acc = [acc.reverse ++ cs] := by
  induction cs with
  | nil =>
    intro acc _
    simp [splitSlashAux]
  | cons c cs ih =>
    intro acc h
    have hc : c ≠ '/' := by
      intro he
      exact h (he ▸ List.mem_cons_self c cs)
    rw [splitSlashAux, if_neg hc, ih (c :: acc)
      (fun hm => h (List.mem_cons_of_mem c hm))]
    simp

/-- Every part of a path is slash-free, non-empty and different from the
single dot. -/
theorem pathParts_mem (s b : String) (hb : b ∈ pathParts s) :
    '/' ∉ b.data ∧ b ≠ "" ∧ b ≠ "." := by
  unfold pathParts at hb
  rcases List.mem_filter.mp hb with ⟨hmap, hpred⟩
  rcases List.mem_map.mp hmap with ⟨chunk, hchunk, hmk⟩
  have hns : '/' ∉ chunk :=
    splitSlashAux_mem_no_slash s.data [] (by simp) chunk hchunk
  constructor
  · rw [← hmk]
    exact hns
  · constructor <;> intro he <;> rw [he] at hpred <;> simp at hpred

/-- Parsing a single part of a path gives back exactly that part. -/
theorem pathParts_of_part (s b : String) (hb : b ∈ pathParts s) :
    pathParts b = [b] := by
  obtain ⟨hns, hne, hnd⟩ := pathParts_mem s b hb
  unfold pathParts
  rw [splitSlashAux_no_slash_input b.data [] hns]
  have hmk : String.mk b.data = b := rfl
  simp [hmk, hne, hnd]

/-- Unfolding equation of `stripLead` on a non-empty list. -/
theorem stripLead_cons (seg p : String) (rest : List String) :
    stripLead seg (p :: rest) = if p = seg then rest else p :: rest := rfl

/-- Stripping a leading segment preserves the last element when something
remains (auxiliary for the name agreement below). -/
theorem getLast?_stripLead (seg : String) (l : List String)
    (h : stripLead seg l ≠ []) :
    (stripLead seg l).getLast? = l.getLast? := by
  cases l with
  | nil => simp [stripLead] at h
  | cons p rest =>
    rw [stripLead_cons] at h ⊢
    by_cases hp : p = seg
    · rw [if_pos hp] at h ⊢
      cases rest with
      | nil => exact absurd rfl h
      | cons q qs => rw [List.getLast?_cons_cons]
    · rw [if_neg hp]

/-- The last part of a non-empty parts list is one of its members. -/
theorem posixName_mem (l : List String) (h : l ≠ []) : posixName l ∈ l := by
  induction l with
  | nil => exact absurd rfl h
  | cons a l ih =>
    cases hl : l with
    | nil => simp [posixName]
    | cons b m =>
      subst hl
      have hmem := ih (by simp)
      have hstep : posixName (a :: b :: m) = posixName (b :: m) := by
        simp [posixName, List.getLast?_cons_cons]
      rw [hstep]
      exact List.mem_cons_of_mem a hmem

/-- Parsing the empty string yields no parts. -/
theorem pathParts_empty : pathParts "" = [] := by decide

/-- The two places where the code and the spec wording differ — the name
used for the stem and the remaining parent directory — agree on every
input: the code's fallback through the bare source name produces the
basename and an empty parent, exactly as the spec words it. -/
theorem audio_relative_facts (src taskId : String) :
    posixName
      (if (stripLead "download" (stripLead taskId (pathParts src))).isEmpty
        then pathParts (posixName (pathParts src))
        else stripLead "download" (stripLead taskId (pathParts src))) =
      posixName (pathParts src) ∧
    (if (stripLead "download" (stripLead taskId (pathParts src))).isEmpty
        then pathParts (posixName (pathParts src))
        else stripLead "download" (stripLead taskId (pathParts src))).dropLast
      = (stripLead "download" (stripLead taskId (pathParts src))).dropLast
      := by
  by_cases hRe :
    (stripLead "download" (stripLead taskId (pathParts src))).isEmpty
  · rw [if_pos hRe]
    have hRnil : stripLead "download" (stripLead taskId (pathParts src))
        = [] := by
      simpa using hRe
    rw [hRnil]
    cases hP : pathParts src with
    | nil => simp [posixName, pathParts_empty]
    | cons q qs =>
      have hmem : posixName (q :: qs) ∈ q :: qs :=
        posixName_mem (q :: qs) (by simp)
      have hsingle : pathParts (posixName (q :: qs)) = [posixName (q :: qs)]
        := by
        refine pathParts_of_part src _ ?_
        rw [hP]
        exact hmem
      rw [hsingle]
      constructor
      · simp [posixName]
      · simp
  · rw [if_neg hRe]
    have hR : stripLead "download" (stripLead taskId (pathParts src)) ≠ []
      := by
      simpa using hRe
    have hL1 : stripLead taskId (pathParts src) ≠ [] := by
      intro h
      rw [h] at hR
      exact hR rfl
    refine ⟨?_, rfl⟩
    unfold posixName
    rw [getLast?_stripLead _ _ hR, getLast?_stripLead _ _ hL1]

/-- C2: for every source key, task id, bucket prefix and override name that
are relative path strings (no leading slash — the hypotheses delimit where
the embedding of `PurePosixPath` by part lists is faithful), the code's
`_derive_storage_key` agrees with the spec's `derive_audio_key` wording; and
at the spec's example the source key `task-123/download/video.mp4` with task
id `task-123`, no prefix and no override yields the relative key
`extract-audio/video.audio.mka` and the full key
`task-123/extract-audio/video.audio.mka`. -/
theorem audio_key_derivation (src taskId : String)
    (bucketPfx overrideName : Option String)
    (hsrc : startsWithSlash src = false)
    (htid : startsWithSlash taskId = false)
    (hovr : ∀ s, overrideName = some s → startsWithSlash s = false) :
    derive_storage_key src taskId bucketPfx overrideName =
      derive_audio_key_spec src taskId bucketPfx overrideName ∧
    derive_storage_key "task-123/download/video.mp4" "task-123" none none =
      ("extract-audio/video.audio.mka",
        "task-123/extract-audio/video.audio.mka") := by
  refine ⟨?_, by decide⟩
  obtain ⟨hname, hpar⟩ := audio_relative_facts src taskId
  unfold derive_storage_key derive_audio_key_spec
  simp only [hname, hpar]

/-- C2 witness: the agreement and the example key at the spec's example
inputs, which carry no leading slash. -/
theorem audio_key_derivation_w :
    startsWithSlash "task-123/download/video.mp4" = false ∧
    startsWithSlash "task-123" = false ∧
    derive_storage_key "task-123/download/video.mp4" "task-123" none none =
      derive_audio_key_spec "task-123/download/video.mp4" "task-123" none
        none ∧
    derive_storage_key "task-123/download/video.mp4" "task-123" none none =
      ("extract-audio/video.audio.mka",
        "task-123/extract-audio/video.audio.mka") := by
  have h := audio_key_derivation "task-123/download/video.mp4" "task-123"
    none none (by decide) (by decide) (fun s hs => Option.noConfusion hs)
  exact ⟨by decide, by decide, h.1, h.2⟩

end Stevedore
